import Mathlib

/-!
Verification of `tabular_toolbox/dask_ex.py` (lixfz/tabular-toolbox).

Shallow embedding of the module's core: the `SafeOrdinalEncoder` categorical
encoding subsystem, the partitioned-backend metadata repair helpers
(`make_chunk_size_known`, `make_divisions_known`), `concat_df`,
`train_test_split`, the `permutation_importance` estimator wrapping, and the
`DataInterceptEncoder` hook base.

Modelling conventions:
* A pandas/dask cell value is `CellVal`: a string, an integer payload, the
  not-a-number marker, or the null/None marker.  Numeric float payloads are
  carried as integer payloads tagged with a float dtype; no floating-point
  arithmetic occurs in the verified code paths.
* Numpy dtypes are the `NpDtype` enumeration.  On the platform the code
  targets (64-bit Linux) `np.float` aliases `float64`, `np.int` aliases
  `int64` and `np.uint` aliases `uint64`; membership tests mirror the tuples
  written in the source.
* Partitioned (dask) tables are lists of partitions of index-tagged rows plus
  the `known_divisions` flag; partitioned arrays carry per-chunk true lengths
  plus per-chunk "size known" flags.  A raised Python exception is an
  `Except.error` (or `Option.none` for the numpy cast step).
* Backend primitives used by the source (`dd.concat`, `pd.concat`,
  `set_index`, `dask_ml`/`sklearn` `train_test_split`, `np.vectorize` output
  casts) are modelled as executable Lean functions whose behaviour follows
  the backend's documented semantics; each such definition says so in its
  doc comment.
-/

/-- A cell value of a pandas/dask column: string, integer payload (also used
for the payload of float-typed columns, see module conventions), the NaN
marker, or the null/None marker. -/
inductive CellVal : Type where
  | vstr (s : String)
  | vint (n : Int)
  | vnan
  | vnull
  deriving DecidableEq, Repr

open CellVal

/-- Lexicographic comparison of char lists; models the ordering that
`pandas.Index.sort_values` applies to string categories. -/
def charListLe : List Char → List Char → Bool
  | [], _ => true
  | _ :: _, [] => false
  | c :: cs, d :: ds => if c < d then true else if d < c then false else charListLe cs ds

/-- Constructor rank used to totalise the cell ordering across the (in
practice homogeneous) value kinds of one column. -/
def cellRank : CellVal → Nat
  | vstr _ => 0
  | vint _ => 1
  | vnan => 2
  | vnull => 3

/-- Total comparison on cell values: strings lexicographically, integers
numerically; heterogeneous kinds (never mixed inside one fitted column) are
ordered by rank so the relation is total. -/
def cellLeB : CellVal → CellVal → Bool
  | vstr a, vstr b => charListLe a.data b.data
  | vint a, vint b => decide (a ≤ b)
  | a, b => decide (cellRank a ≤ cellRank b)

/-- The ordering relation on cell values (propositional form of `cellLeB`). -/
def cellLe (a b : CellVal) : Prop := cellLeB a b = true

instance : DecidableRel cellLe := fun a b => instDecidableEqBool (cellLeB a b) true

theorem charListLe_total : ∀ a b : List Char, charListLe a b = true ∨ charListLe b a = true
  | [], _ => Or.inl rfl
  | _ :: _, [] => Or.inr rfl
  | c :: cs, d :: ds => by
    rcases lt_trichotomy c d with h | h | h
    · left; simp [charListLe, h]
    · subst h
      rcases charListLe_total cs ds with h2 | h2
      · left; simp [charListLe, lt_irrefl, h2]
      · right; simp [charListLe, lt_irrefl, h2]
    · right; simp [charListLe, h]

theorem charListLe_trans :
    ∀ a b c : List Char, charListLe a b = true → charListLe b c = true →
      charListLe a c = true
  | [], _, _, _, _ => rfl
  | _ :: _, [], _, h1, _ => by simp [charListLe] at h1
  | _ :: _, _ :: _, [], _, h2 => by simp [charListLe] at h2
  | a :: as, b :: bs, c :: cs, h1, h2 => by
    simp only [charListLe] at h1 h2 ⊢
    by_cases hab : a < b
    · by_cases hbc : b < c
      · rw [if_pos (lt_trans hab hbc)]
      · by_cases hcb : c < b
        · rw [if_neg hbc, if_pos hcb] at h2; exact absurd h2 (by simp)
        · have hbceq : b = c := le_antisymm (not_lt.mp hcb) (not_lt.mp hbc)
          subst hbceq
          rw [if_pos hab]
    · by_cases hba : b < a
      · rw [if_neg hab, if_pos hba] at h1; exact absurd h1 (by simp)
      · have habeq : a = b := le_antisymm (not_lt.mp hba) (not_lt.mp hab)
        subst habeq
        rw [if_neg hab, if_neg hba] at h1
        by_cases hac : a < c
        · rw [if_pos hac]
        · by_cases hca : c < a
          · rw [if_neg hac, if_pos hca] at h2; exact absurd h2 (by simp)
          · have haceq : a = c := le_antisymm (not_lt.mp hca) (not_lt.mp hac)
            subst haceq
            rw [if_neg hac, if_neg hca] at h2 ⊢
            exact charListLe_trans as bs cs h1 h2

theorem charListLe_antisymm :
    ∀ a b : List Char, charListLe a b = true → charListLe b a = true → a = b
  | [], [], _, _ => rfl
  | [], _ :: _, _, h2 => by simp [charListLe] at h2
  | _ :: _, [], h1, _ => by simp [charListLe] at h1
  | a :: as, b :: bs, h1, h2 => by
    simp only [charListLe] at h1 h2
    by_cases hab : a < b
    · rw [if_neg (lt_asymm hab), if_pos hab] at h2; exact absurd h2 (by simp)
    · by_cases hba : b < a
      · rw [if_neg hab, if_pos hba] at h1; exact absurd h1 (by simp)
      · have habeq : a = b := le_antisymm (not_lt.mp hba) (not_lt.mp hab)
        subst habeq
        rw [if_neg hab, if_neg hba] at h1 h2
        rw [charListLe_antisymm as bs h1 h2]

instance : IsTotal CellVal cellLe := by
  constructor
  intro a b
  cases a <;> cases b <;> simp [cellLe, cellLeB, cellRank] <;>
    first
      | exact charListLe_total _ _
      | omega

instance : IsTrans CellVal cellLe := by
  constructor
  intro a b c h1 h2
  cases a <;> cases b <;> cases c <;>
    simp [cellLe, cellLeB, cellRank] at h1 h2 ⊢ <;>
    first
      | exact charListLe_trans _ _ _ h1 h2
      | omega

instance : IsAntisymm CellVal cellLe := by
  constructor
  intro a b h1 h2
  cases a <;> cases b <;> simp [cellLe, cellLeB, cellRank] at h1 h2 ⊢
  case vstr.vstr s t =>
    cases s; cases t
    simp only [String.data] at h1 h2
    exact congrArg String.mk (charListLe_antisymm _ _ h1 h2)
  case vint.vint => omega

/-- Pandas missing-value markers (NaN and None), which categoricals exclude
from their categories. -/
def isMissing : CellVal → Bool
  | vnan => true
  | vnull => true
  | _ => false

/-- The category set a `categorize` pass computes for a column that is not
already known-categorical (used by `SafeOrdinalEncoder.fit` at lines
401-405, then `X[c].cat.categories.sort_values()`): the deduplicated
observed values with missing markers excluded, sorted. -/
def fitColumn (obs : List CellVal) : List CellVal :=
  List.insertionSort cellLe (obs.filter (fun v => !isMissing v)).dedup

theorem fitColumn_sorted (obs : List CellVal) : (fitColumn obs).Sorted cellLe :=
  List.sorted_insertionSort cellLe _

theorem fitColumn_nodup (obs : List CellVal) : (fitColumn obs).Nodup :=
  ((List.perm_insertionSort cellLe _).nodup_iff).mpr (List.nodup_dedup _)

theorem fitColumn_mem (obs : List CellVal) (x : CellVal) :
    x ∈ fitColumn obs ↔ x ∈ obs ∧ isMissing x = false := by
  unfold fitColumn
  rw [List.mem_insertionSort, List.mem_dedup, List.mem_filter]
  simp

theorem fitColumn_perm_invariant {l l' : List CellVal} (h : l.Perm l') :
    fitColumn l = fitColumn l' := by
  refine List.eq_of_perm_of_sorted ?_ (fitColumn_sorted l) (fitColumn_sorted l')
  exact ((List.perm_insertionSort cellLe _).trans (h.filter _).dedup).trans
    (List.perm_insertionSort cellLe _).symm

/-- The dtypes `SafeOrdinalEncoder` can record for a column: the numpy
numeric and object dtypes, plus the pandas `CategoricalDtype` carried by a
column that is already categorical at fit time (its declared category set
is part of the dtype).  On the targeted 64-bit Linux platform `np.float`
aliases `float64`, `np.int` aliases `int64` and `np.uint` aliases
`uint64`. -/
inductive NpDtype : Type where
  | float16
  | float32
  | float64
  | int8
  | int16
  | int32
  | int64
  | uint8
  | uint16
  | uint32
  | uint64
  | object_
  | category (declared : List CellVal)
  deriving DecidableEq, Repr

/-- Whether a dtype is the pandas `CategoricalDtype` (the "category" half of
the `select_dtypes(include=["category", 'object'])` auto-detection at line
397). -/
def isCategoryDtype : NpDtype → Bool
  | .category _ => true
  | _ => false

/-- The vocabulary `fit` records for one selected column (lines 401-405):
`X.categorize(columns=...)` computes categories only for columns that are
not already known-categorical, so an already-categorical column keeps its
declared category set — possibly containing never-observed values — and the
vocabulary is its sorted form (`CategoricalDtype` categories are unique and
non-missing by construction, so `fitColumn` only sorts them); every other
column's vocabulary is its sorted deduplicated observed values. -/
def colVocabulary (d : NpDtype) (observed : List CellVal) : List CellVal :=
  match d with
  | .category declared => fitColumn declared
  | _ => fitColumn observed

/-- Membership in the tuple `(np.float32, np.float64, np.float)` tested at
line 515 of `dask_ex.py` (`np.float` is the `float64` alias). -/
def floatTupleMem : NpDtype → Bool
  | .float32 => true
  | .float64 => true
  | _ => false

/-- Membership in the tuple `(np.int32, np.int64, np.int, np.uint32,
np.uint64, np.uint)` tested at line 517 (`np.int`/`np.uint` alias
`int64`/`uint64`). -/
def intTupleMem : NpDtype → Bool
  | .int32 => true
  | .int64 => true
  | .uint32 => true
  | .uint64 => true
  | _ => false

/-- The unseen/out-of-range sentinel chosen by the `else` branch of
`decode_column` (lines 513-520): NaN for the float tuple, -1 for the int
tuple, None otherwise. -/
def sentinel (d : NpDtype) : CellVal :=
  if floatTupleMem d then vnan
  else if intTupleMem d then vint (-1)
  else vnull

/-- `make_encoder`'s per-value mapping (lines 477-488): the fitted categories
are zipped with `range(len(cat))` into a `defaultdict(dtype)` sending the
i-th category (0-based) to code `i + 1`; a value absent from the vocabulary
hits the defaultdict default `dtype()`, i.e. code 0.  Codes are exact small
integers stored in the configured numeric dtype (default `float64`),
modelled as `Int`. -/
def encode_column (cat : List CellVal) (x : CellVal) : Int :=
  if x ∈ cat then (cat.indexOf x : Int) + 1 else 0

/-- `make_decoder`'s per-value mapping (lines 507-520): `int(x)` codes in
`1..len(cat)` select the category at the matching 1-based position; any
other code yields the dtype-dispatched sentinel. -/
def decode_column (cat : List CellVal) (d : NpDtype) (x : Int) : CellVal :=
  if h : 1 ≤ x ∧ x ≤ (cat.length : Int) then
    cat.get ⟨(x - 1).toNat, by omega⟩
  else sentinel d

/-- Writing a decoded value into the output array that
`np.vectorize(decode_column, otypes=[dtypes[col]])` allocates (line 527):
object outputs accept anything; float outputs convert None to NaN; integer
outputs accept integer payloads with the usual wrap to the dtype's width
(`% 2^w`, offset into the signed range for the signed dtypes — so `-1`
wraps to the dtype maximum for unsigned outputs) and raise
`TypeError`/`ValueError` (here `none`) on None, NaN or strings; a
`CategoricalDtype` is not interpretable as a numpy dtype at all, so the
`np.vectorize` construction itself raises `TypeError` before any value is
decoded (every cell is `none`).  Modelled from numpy's
object-array-to-dtype conversion semantics (numpy of the 2020-2021 era this
repository targets, where negative values wrap silently into unsigned
dtypes). -/
def castAssign (d : NpDtype) (v : CellVal) : Option CellVal :=
  match d with
  | .object_ => some v
  | .category _ => none
  | .float16 | .float32 | .float64 =>
    match v with
    | vnull => some vnan
    | vnan => some vnan
    | vint n => some (vint n)
    | vstr _ => none
  | .int8 =>
    match v with
    | vint n => some (vint ((n + 128) % 256 - 128))
    | _ => none
  | .int16 =>
    match v with
    | vint n => some (vint ((n + 32768) % 65536 - 32768))
    | _ => none
  | .int32 =>
    match v with
    | vint n => some (vint ((n + 2147483648) % 4294967296 - 2147483648))
    | _ => none
  | .int64 =>
    match v with
    | vint n => some (vint ((n + 9223372036854775808)
        % 18446744073709551616 - 9223372036854775808))
    | _ => none
  | .uint8 =>
    match v with
    | vint n => some (vint (n % 256))
    | _ => none
  | .uint16 =>
    match v with
    | vint n => some (vint (n % 65536))
    | _ => none
  | .uint32 =>
    match v with
    | vint n => some (vint (n % 4294967296))
    | _ => none
  | .uint64 =>
    match v with
    | vint n => some (vint (n % 18446744073709551616))
    | _ => none

/-- One decoded-and-materialised cell of `safe_ordinal_decoder`:
`decode_column` followed by the `otypes=[dtypes[col]]` output cast. -/
def decodeCast (cat : List CellVal) (d : NpDtype) (x : Int) : Option CellVal :=
  castAssign d (decode_column cat d x)

/-- The whole-column action of `safe_ordinal_decoder` (lines 522-529) on one
categorical column: build the vectorized decoder — which raises `TypeError`
at construction (line 527) when the recorded dtype is a pandas
`CategoricalDtype`, since `np.dtype` cannot interpret it — then decode every
code and materialise the output array in the recorded dtype; `none` models
the raised exception. -/
def safe_ordinal_decode_col (cat : List CellVal) (d : NpDtype)
    (codes : List Int) : Option (List CellVal) :=
  match d with
  | .category _ => none
  | _ => codes.mapM (decodeCast cat d)

/-- Data invariant of a fitted column, needed because `CellVal` is untyped:
cells of a numeric column are numeric payloads within the dtype's range;
object columns are unrestricted.  Real pandas columns satisfy this by
construction.  No cell of an already-categorical column satisfies it: the
recorded `CategoricalDtype` makes every `inverse_transform` raise (see the
C1 counterexample), so the round-trip sentence is restricted to the
non-categorical recorded dtypes. -/
def dtypeCompat (d : NpDtype) (v : CellVal) : Bool :=
  match d, v with
  | .object_, _ => true
  | .float16, vint _ => true
  | .float32, vint _ => true
  | .float64, vint _ => true
  | .int8, vint n => decide (-128 ≤ n ∧ n < 128)
  | .int16, vint n => decide (-32768 ≤ n ∧ n < 32768)
  | .int32, vint n => decide (-2147483648 ≤ n ∧ n < 2147483648)
  | .int64, vint n =>
    decide (-9223372036854775808 ≤ n ∧ n < 9223372036854775808)
  | .uint8, vint n => decide (0 ≤ n ∧ n < 256)
  | .uint16, vint n => decide (0 ≤ n ∧ n < 65536)
  | .uint32, vint n => decide (0 ≤ n ∧ n < 4294967296)
  | .uint64, vint n => decide (0 ≤ n ∧ n < 18446744073709551616)
  | _, _ => false

/-- The output cast is the identity on values that conform to the recorded
dtype (in-range integers are fixed by the wrap). -/
theorem castAssign_of_compat (d : NpDtype) (v : CellVal)
    (hc : dtypeCompat d v = true) : castAssign d v = some v := by
  cases d <;> cases v <;>
    simp_all [castAssign, dtypeCompat] <;> omega

/-- A named pandas column with its dtype and cell values. -/
structure FCol : Type where
  name : String
  dtype : NpDtype
  values : List CellVal
  deriving DecidableEq, Repr

/-- A pandas/dask dataframe as `SafeOrdinalEncoder` sees it: an ordered list
of named, typed columns. -/
structure Frame : Type where
  cols : List FCol
  deriving DecidableEq, Repr

def Frame.colNames (X : Frame) : List String := X.cols.map FCol.name

def Frame.colValues (X : Frame) (n : String) : List CellVal :=
  ((X.cols.find? (fun c => c.name == n)).map FCol.values).getD []

def Frame.colDtype (X : Frame) (n : String) : NpDtype :=
  ((X.cols.find? (fun c => c.name == n)).map FCol.dtype).getD NpDtype.object_

/-- The fitted state of `SafeOrdinalEncoder`: the constructor parameter
`columns`, and the attributes set by `fit` (lines 393-405). -/
structure SafeOrdinalEncoderState : Type where
  columns : Option (List String)
  columns_ : List String
  dtypes_ : List (String × NpDtype)
  categorical_columns_ : List String
  non_categorical_columns_ : List String
  categories_ : List (String × List CellVal)
  deriving DecidableEq, Repr

/-- `SafeOrdinalEncoder.fit` (lines 381-407): record the column names and
their original dtypes, select the categorical columns (the explicit
`columns` parameter, or `select_dtypes(include=["category", 'object'])` at
line 397), categorize, and record each selected column's vocabulary
(`colVocabulary`: sorted declared categories for already-categorical
columns, sorted deduplicated observed values otherwise). -/
def SafeOrdinalEncoder.fit (columns : Option (List String)) (X : Frame) :
    SafeOrdinalEncoderState :=
  let cat := match columns with
    | none => (X.cols.filter (fun c =>
        isCategoryDtype c.dtype || c.dtype == NpDtype.object_)).map FCol.name
    | some cs => cs
  { columns := columns
    columns_ := X.colNames
    dtypes_ := X.cols.map (fun c => (c.name, c.dtype))
    categorical_columns_ := cat
    non_categorical_columns_ := X.colNames.filter (fun n => !(cat.contains n))
    categories_ := cat.map (fun n =>
      (n, colVocabulary (X.colDtype n) (X.colValues n))) }

/-- The `ValueError` raised by `SafeOrdinalEncoder.transform` on a column
mismatch (lines 422-426).  Faithful to the `format` call: the second slot
carries `self.columns` — the constructor parameter, which is `None` in
auto-detect mode — not the fitted `self.columns_`. -/
structure ColumnsMismatchError : Type where
  got : List String
  expected : Option (List String)
  deriving DecidableEq, Repr

/-- `SafeOrdinalEncoder.transform` (lines 409-436): require the incoming
column names to equal the fitted ones (same names, same order), then map
every categorical column through its vocabulary; codes are written in the
configured numeric dtype (default `float64`). -/
def SafeOrdinalEncoder.transform (e : SafeOrdinalEncoderState) (X : Frame) :
    Except ColumnsMismatchError Frame :=
  if X.colNames = e.columns_ then
    .ok ⟨X.cols.map (fun c =>
      if e.categorical_columns_.contains c.name then
        { c with
          dtype := NpDtype.float64
          values := c.values.map (fun v =>
            vint (encode_column ((e.categories_.lookup c.name).getD []) v)) }
      else c)⟩
  else .error ⟨X.colNames, e.columns⟩

/-- `SafeOrdinalEncoder.inverse_transform` (lines 438-474) restricted to the
dataframe path: decode every categorical column with its recorded dtype;
`none` models a raised exception (non-numeric code cell, or output-cast
failure). -/
def SafeOrdinalEncoder.inverse_transform (e : SafeOrdinalEncoderState)
    (X : Frame) : Option Frame :=
  (X.cols.mapM (fun c =>
    if e.categorical_columns_.contains c.name then
      let cat := (e.categories_.lookup c.name).getD []
      let d := ((e.dtypes_.lookup c.name).getD NpDtype.object_)
      ((c.values.mapM (fun v =>
        match v with
        | vint n => some n
        | _ => none)).bind (safe_ordinal_decode_col cat d)).map
        (fun vs => { c with dtype := d, values := vs })
    else some c)).map Frame.mk

/-- Concrete two-column object frame for the schema-guard scenario. -/
def frameAB : Frame :=
  ⟨[⟨"a", NpDtype.object_, [vstr "x", vstr "y"]⟩,
    ⟨"b", NpDtype.object_, [vstr "u", vstr "v"]⟩]⟩

/-- `frameAB` with its two columns swapped. -/
def frameBA : Frame :=
  ⟨[⟨"b", NpDtype.object_, [vstr "u", vstr "v"]⟩,
    ⟨"a", NpDtype.object_, [vstr "x", vstr "y"]⟩]⟩

/-- The encoder fitted on `frameAB` in auto-detect mode (`columns=None`). -/
def encAB : SafeOrdinalEncoderState := SafeOrdinalEncoder.fit none frameAB

/-- C2 (amended): for object (and other non-categorical) columns the fitted
vocabulary is the sorted, deduplicated set of observed values (missing
markers excluded) with 1-based codes in sorted order, independent of row
order and partitioning; the red/blue scenario holds as claimed.  For a
column that is already categorical at fit time, `categorize` (line 401)
skips recomputation and the vocabulary is the sorted declared category set
— still sorted, deduplicated and order-independent, but possibly containing
never-observed values, so it is not in general the observed set (see
`C2_vocabulary_counterexample`). -/
theorem C2_vocabulary_sorted_dedup_deterministic :
    (∀ l l' : List CellVal, l.Perm l' → fitColumn l = fitColumn l')
    ∧ (∀ l : List CellVal,
        (fitColumn l).Sorted cellLe ∧ (fitColumn l).Nodup
          ∧ ∀ x, x ∈ fitColumn l ↔ (x ∈ l ∧ isMissing x = false))
    ∧ (∀ obs : List CellVal,
        colVocabulary NpDtype.object_ obs = fitColumn obs)
    ∧ (∀ (decl obs obs' : List CellVal),
        colVocabulary (NpDtype.category decl) obs
          = colVocabulary (NpDtype.category decl) obs'
        ∧ colVocabulary (NpDtype.category decl) obs = fitColumn decl)
    ∧ colVocabulary NpDtype.object_ [vstr "red", vstr "blue"]
      = [vstr "blue", vstr "red"]
    ∧ encode_column (fitColumn [vstr "red", vstr "blue"]) (vstr "blue") = 1
    ∧ encode_column (fitColumn [vstr "red", vstr "blue"]) (vstr "red") = 2
    ∧ [vstr "red", vstr "green"].map
        (encode_column (fitColumn [vstr "red", vstr "blue"])) = [2, 0] :=
  ⟨fun _ _ h => fitColumn_perm_invariant h,
   fun l => ⟨fitColumn_sorted l, fitColumn_nodup l, fitColumn_mem l⟩,
   fun _ => rfl,
   fun _ _ _ => ⟨rfl, rfl⟩,
   by decide, by decide, by decide, by decide⟩

/-- Witness for C2: the permutation-invariance part at a concrete pair of
row orders of the same observed values. -/
theorem C2_vocabulary_witness :
    fitColumn [vstr "red", vstr "blue", vstr "red"] =
      fitColumn [vstr "blue", vstr "red", vstr "red"] :=
  C2_vocabulary_sorted_dedup_deterministic.1 _ _ (by decide)

/-- C2 counterexample: a column that is already categorical with declared
categories a, b but observed data only a is skipped by `categorize`, so its
fitted vocabulary contains the never-observed b — the vocabulary is not the
sorted, deduplicated set of observed values. -/
theorem C2_vocabulary_counterexample :
    vstr "b" ∈ colVocabulary (NpDtype.category [vstr "a", vstr "b"]) [vstr "a"]
    ∧ vstr "b" ∉ ([vstr "a"] : List CellVal) := by
  constructor <;> decide

/-- C1 (amended): for a value in the fitted vocabulary of a column whose
cells conform to a recorded non-categorical dtype, transform (encode)
followed by inverse_transform (decode plus output cast) returns the value;
a value absent from the vocabulary encodes to 0; and decoding code 0 yields
the dtype-dispatched sentinel whenever that sentinel survives the output
cast into the recorded dtype — it does for object, float and
int32/int64/uint32/uint64 columns (for the unsigned pair as the wrap of
-1).  inverse_transform can raise: for int8/int16/uint8/uint16 columns the
None sentinel fails the integer output cast, and for columns recorded with
the pandas `CategoricalDtype` (a mainstream auto-detected input) the
vectorized decoder raises at construction for every code, in-range
included, breaking even the round trip (see
`C1_roundtrip_counterexample`). -/
theorem C1_roundtrip_unseen (obs : List CellVal) (d : NpDtype) (v : CellVal) :
    (dtypeCompat d v = true → v ∈ fitColumn obs →
        decodeCast (fitColumn obs) d (encode_column (fitColumn obs) v) = some v)
    ∧ (v ∉ fitColumn obs → encode_column (fitColumn obs) v = 0)
    ∧ (∀ w, castAssign d (sentinel d) = some w →
        decodeCast (fitColumn obs) d 0 = some w) := by
  refine ⟨?_, ?_, ?_⟩
  · intro hc hm
    have hidx : (fitColumn obs).indexOf v < (fitColumn obs).length :=
      List.indexOf_lt_length.mpr hm
    unfold decodeCast decode_column encode_column
    rw [if_pos hm]
    rw [dif_pos (by omega)]
    have harg : ((((fitColumn obs).indexOf v : Int) + 1) - 1).toNat
        = (fitColumn obs).indexOf v := by omega
    simp only [harg]
    rw [List.indexOf_get]
    exact castAssign_of_compat d v hc
  · intro hm
    simp [encode_column, hm]
  · intro w hw
    unfold decodeCast decode_column
    rw [dif_neg (by omega)]
    exact hw

/-- Witness for C1 on a two-value object column: round trip of an in-vocab
value, code 0 for an unseen value, and the None sentinel for decode of 0. -/
theorem C1_roundtrip_witness :
    decodeCast (fitColumn [vstr "a", vstr "b"]) NpDtype.object_
        (encode_column (fitColumn [vstr "a", vstr "b"]) (vstr "b"))
      = some (vstr "b")
    ∧ encode_column (fitColumn [vstr "a", vstr "b"]) (vstr "z") = 0
    ∧ decodeCast (fitColumn [vstr "a", vstr "b"]) NpDtype.object_ 0
      = some vnull :=
  ⟨(C1_roundtrip_unseen [vstr "a", vstr "b"] NpDtype.object_ (vstr "b")).1
      (by decide) (by decide),
   (C1_roundtrip_unseen [vstr "a", vstr "b"] NpDtype.object_ (vstr "z")).2.1
      (by decide),
   (C1_roundtrip_unseen [vstr "a", vstr "b"] NpDtype.object_ (vstr "a")).2.2
      vnull (by decide)⟩

/-- C1 counterexample: the claim fails twice.  On a column with recorded
dtype `int16` (an explicitly selected numeric column), decoding the unseen
code 0 produces the None sentinel — `int16` is in neither dtype tuple of
`decode_column` — and writing None into the `int16` output array raises
`TypeError` (modelled `none`), so decode of 0 raises instead of returning a
marker.  And on a column that was already category-dtyped at fit time,
`fit` records the `CategoricalDtype` (line 394) and
`np.vectorize(..., otypes=[dtypes[col]])` (line 527) raises `TypeError` at
construction for every code, so even the in-vocabulary round trip raises
rather than returning v. -/
theorem C1_roundtrip_counterexample :
    decodeCast (fitColumn [vint 7]) NpDtype.int16 0 = none
    ∧ safe_ordinal_decode_col (fitColumn [vint 7]) NpDtype.int16 [0] = none
    ∧ decodeCast (colVocabulary (NpDtype.category [vstr "a"]) [vstr "a"])
        (NpDtype.category [vstr "a"]) 1 = none
    ∧ safe_ordinal_decode_col
        (colVocabulary (NpDtype.category [vstr "a"]) [vstr "a"])
        (NpDtype.category [vstr "a"]) [1] = none := by
  refine ⟨by decide, by decide, by decide, by decide⟩

/-- C7 (amended): codes in `1..len(cat)` decode to the category at the
matching 1-based position.  Out-of-range codes (0 included) decode to the
`decode_column` sentinel, which after the output cast into the recorded
dtype is: NaN for float dtypes (float32/float64 directly, float16 via the
None-to-NaN array conversion); -1 for int32/int64; the wrap of -1 to the
dtype maximum for uint32/uint64 (4294967295 resp. 18446744073709551615);
None for object columns.  For the small integer dtypes
int8/int16/uint8/uint16 the None sentinel fails the integer output cast and
inverse_transform raises instead of producing -1, and for a column whose
recorded dtype is the pandas `CategoricalDtype` the vectorized decoder
raises at construction for every code (see `C7_decode_counterexample`). -/
theorem C7_decode_sentinels (cat : List CellVal) (d : NpDtype) (x : Int) :
    (∀ h : 1 ≤ x ∧ x ≤ (cat.length : Int),
        decode_column cat d x = cat.get ⟨(x - 1).toNat, by omega⟩)
    ∧ (¬(1 ≤ x ∧ x ≤ (cat.length : Int)) →
        decode_column cat d x = sentinel d
        ∧ ((d = .float16 ∨ d = .float32 ∨ d = .float64) →
            decodeCast cat d x = some vnan)
        ∧ ((d = .int32 ∨ d = .int64) →
            decodeCast cat d x = some (vint (-1)))
        ∧ (d = .uint32 → decodeCast cat d x = some (vint 4294967295))
        ∧ (d = .uint64 →
            decodeCast cat d x = some (vint 18446744073709551615))
        ∧ (d = .object_ → decodeCast cat d x = some vnull)
        ∧ ((d = .int8 ∨ d = .int16 ∨ d = .uint8 ∨ d = .uint16) →
            decodeCast cat d x = none))
    ∧ (∀ decl, d = .category decl →
        decodeCast cat d x = none
        ∧ ∀ codes, safe_ordinal_decode_col cat d codes = none) := by
  refine ⟨?_, ?_, ?_⟩
  · intro h
    unfold decode_column
    rw [dif_pos h]
  · intro h
    have hdec : decode_column cat d x = sentinel d := by
      unfold decode_column
      rw [dif_neg h]
    refine ⟨hdec, ?_, ?_, ?_, ?_, ?_, ?_⟩
    · intro hd
      unfold decodeCast
      rw [hdec]
      rcases hd with h1 | h1 | h1 <;> subst h1 <;> rfl
    · intro hd
      unfold decodeCast
      rw [hdec]
      rcases hd with h1 | h1 <;> subst h1 <;> decide
    · intro hd
      unfold decodeCast
      rw [hdec]
      subst hd
      decide
    · intro hd
      unfold decodeCast
      rw [hdec]
      subst hd
      decide
    · intro hd
      unfold decodeCast
      rw [hdec]
      subst hd
      rfl
    · intro hd
      unfold decodeCast
      rw [hdec]
      rcases hd with h1 | h1 | h1 | h1 <;> subst h1 <;> rfl
  · intro decl hd
    subst hd
    exact ⟨rfl, fun _ => rfl⟩

/-- Witness for C7: in-range decode on a concrete vocabulary, the surviving
sentinels (NaN, -1, the unsigned wrap, None), the raising small-int case,
and the raising category-dtype case. -/
theorem C7_decode_witness :
    decode_column [vstr "p", vstr "q"] NpDtype.object_ 2 = vstr "q"
    ∧ decodeCast [vstr "p", vstr "q"] NpDtype.float64 0 = some vnan
    ∧ decodeCast [vint 3] NpDtype.int64 9 = some (vint (-1))
    ∧ decodeCast [vint 3] NpDtype.uint32 0 = some (vint 4294967295)
    ∧ decodeCast [vstr "p"] NpDtype.object_ 0 = some vnull
    ∧ decodeCast [vint 3] NpDtype.uint8 0 = none
    ∧ safe_ordinal_decode_col [vstr "p"] (NpDtype.category [vstr "p"]) [1]
      = none :=
  ⟨(C7_decode_sentinels [vstr "p", vstr "q"] NpDtype.object_ 2).1 (by decide),
   ((C7_decode_sentinels [vstr "p", vstr "q"] NpDtype.float64 0).2.1
      (by decide)).2.1 (by decide),
   ((C7_decode_sentinels [vint 3] NpDtype.int64 9).2.1 (by decide)).2.2.1
      (by decide),
   ((C7_decode_sentinels [vint 3] NpDtype.uint32 0).2.1 (by decide)).2.2.2.1
      rfl,
   ((C7_decode_sentinels [vstr "p"] NpDtype.object_ 0).2.1
      (by decide)).2.2.2.2.2.1 rfl,
   ((C7_decode_sentinels [vint 3] NpDtype.uint8 0).2.1
      (by decide)).2.2.2.2.2.2 (by decide),
   ((C7_decode_sentinels [vstr "p"] (NpDtype.category [vstr "p"]) 1).2.2
      [vstr "p"] rfl).2 [1]⟩

/-- C7 counterexample: `int16` is an integer dtype yet decoding the
out-of-range code 0 raises instead of producing -1; `uint32` produces the
wrapped dtype maximum, not -1; and a category-recorded column raises for
every code instead of decoding to any marker. -/
theorem C7_decode_counterexample :
    decodeCast [vint 3] NpDtype.int16 0 ≠ some (vint (-1))
    ∧ decodeCast [vint 3] NpDtype.uint32 0 ≠ some (vint (-1))
    ∧ safe_ordinal_decode_col [vstr "a"] (NpDtype.category [vstr "a"]) [1]
      ≠ some [vstr "a"] := by
  refine ⟨by decide, by decide, by decide⟩

instance {ε α : Type} [DecidableEq ε] [DecidableEq α] :
    DecidableEq (Except ε α) := fun a b =>
  match a, b with
  | .error e, .error f =>
    if h : e = f then isTrue (by rw [h])
    else isFalse (fun hh => h (Except.error.inj hh))
  | .ok x, .ok y =>
    if h : x = y then isTrue (by rw [h])
    else isFalse (fun hh => h (Except.ok.inj hh))
  | .error _, .ok _ => isFalse (fun hh => Except.noConfusion hh)
  | .ok _, .error _ => isFalse (fun hh => Except.noConfusion hh)

/-- C3: `transform` with reordered fitted columns does raise (no silent
reindex), but the raised `ValueError` formats `self.columns` — the
constructor parameter, `None` in auto-detect mode — in its "expected" slot
(line 425), not the fitted training columns `self.columns_` that the message
text promises: with the encoder fitted on columns a, b the error carries
got = b, a and expected = None, naming no fitted column. -/
theorem C3_transform_mismatch_message :
    SafeOrdinalEncoder.transform encAB frameBA
      = Except.error ⟨["b", "a"], none⟩
    ∧ encAB.columns_ = ["a", "b"]
    ∧ (SafeOrdinalEncoder.transform encAB frameBA
        ≠ Except.error ⟨["b", "a"], some encAB.columns_⟩) := by
  refine ⟨by decide, by decide, ?_⟩
  decide

/-- What a `DataInterceptEncoder` hook returns: the estimator itself (`fit`
returns `self`, line 548) or data. -/
inductive HookResult (α : Type) : Type where
  | self
  | data (x : α)
  deriving DecidableEq, Repr

/-- `DataInterceptEncoder` (lines 534-569): one independent toggle per hook,
set in `__init__`, plus the single overridable `intercept`.  Subclasses
(`CallableAdapterEncoder`, `DataCacher`, `CacheCleaner`) only override
`intercept`, modelled by the function field. -/
structure DataInterceptEncoder (α : Type) : Type where
  intercept_fit : Bool
  intercept_fit_transform : Bool
  intercept_transform : Bool
  intercept_inverse_transform : Bool
  intercept : α → α

/-- `DataInterceptEncoder.fit` (lines 544-548): when toggled it calls
`self.intercept(X, ...)` and discards the result; it always returns `self`.
The boolean component records whether `intercept` was invoked. -/
def DataInterceptEncoder.fit {α : Type} (e : DataInterceptEncoder α)
    (_X : α) : HookResult α × Bool :=
  (HookResult.self, e.intercept_fit)

/-- `DataInterceptEncoder.fit_transform` (lines 550-554). -/
def DataInterceptEncoder.fit_transform {α : Type} (e : DataInterceptEncoder α)
    (X : α) : α :=
  if e.intercept_fit_transform then e.intercept X else X

/-- `DataInterceptEncoder.transform` (lines 556-560). -/
def DataInterceptEncoder.transform {α : Type} (e : DataInterceptEncoder α)
    (X : α) : α :=
  if e.intercept_transform then e.intercept X else X

/-- `DataInterceptEncoder.inverse_transform` (lines 562-566). -/
def DataInterceptEncoder.inverse_transform {α : Type}
    (e : DataInterceptEncoder α) (X : α) : α :=
  if e.intercept_inverse_transform then e.intercept X else X

/-- C9 (amended): `fit_transform`, `transform` and `inverse_transform` each
pass the data through unchanged when their toggle is disabled and return
`intercept`'s result when enabled; `fit` invokes `intercept` exactly when its
toggle is enabled but discards the result and always returns `self`, so the
claim's "returns intercept's result / identity on X" does not hold for the
`fit` hook (see `C9_fit_hook_counterexample`). -/
theorem C9_intercept_hooks {α : Type} (e : DataInterceptEncoder α) (X : α) :
    (e.intercept_fit_transform = false → e.fit_transform X = X)
    ∧ (e.intercept_fit_transform = true → e.fit_transform X = e.intercept X)
    ∧ (e.intercept_transform = false → e.transform X = X)
    ∧ (e.intercept_transform = true → e.transform X = e.intercept X)
    ∧ (e.intercept_inverse_transform = false → e.inverse_transform X = X)
    ∧ (e.intercept_inverse_transform = true →
        e.inverse_transform X = e.intercept X)
    ∧ e.fit X = (HookResult.self, e.intercept_fit) := by
  refine ⟨?_, ?_, ?_, ?_, ?_, ?_, rfl⟩ <;>
    · intro h
      simp [DataInterceptEncoder.fit_transform, DataInterceptEncoder.transform,
        DataInterceptEncoder.inverse_transform, h]

/-- A concrete intercept encoder with every toggle off and a non-identity
intercept. -/
def dieAllOff : DataInterceptEncoder Int := ⟨false, false, false, false, (· + 1)⟩

/-- `dieAllOff` with the `fit` and `transform` toggles on. -/
def dieFitOn : DataInterceptEncoder Int := ⟨true, false, true, false, (· + 1)⟩

/-- Witness for C9 on concrete encoders: enabled `transform` applies the
intercept, disabled `fit_transform` is the identity. -/
theorem C9_intercept_hooks_witness :
    dieFitOn.transform 5 = 6 ∧ dieAllOff.fit_transform 5 = 5 :=
  ⟨((C9_intercept_hooks dieFitOn 5).2.2.2.1 rfl).trans rfl,
   (C9_intercept_hooks dieAllOff 5).1 rfl⟩

/-- C9 counterexample: the `fit` hook neither passes its data through when
disabled nor returns `intercept`'s result when enabled — it returns `self`
in both cases. -/
theorem C9_fit_hook_counterexample :
    (dieAllOff.fit 5).1 ≠ HookResult.data 5
    ∧ (dieFitOn.fit 5).1 ≠ HookResult.data (dieFitOn.intercept 5) := by
  constructor <;> decide

/-- A partitioned (dask) array along its first axis: the true chunk lengths,
plus per-chunk flags saying whether the backend knows that length (`false`
models a NaN entry in `a.chunks`). -/
structure DArr : Type where
  trueLens : List Nat
  known : List Bool
  deriving DecidableEq, Repr

/-- The `a.chunks` metadata: `none` models a NaN (unknown) chunk length. -/
def DArr.chunks (a : DArr) : List (Option Nat) :=
  List.zipWith (fun n k => if k then some n else none) a.trueLens a.known

/-- `a.compute_chunk_sizes()`: the backend's one-time full pass that makes
every chunk length known. -/
def DArr.compute_chunk_sizes (a : DArr) : DArr :=
  ⟨a.trueLens, a.trueLens.map (fun _ => true)⟩

/-- `make_chunk_size_known` (lines 72-80): if any chunk length is unknown,
run `compute_chunk_sizes`; otherwise return the array unchanged. -/
def make_chunk_size_known (a : DArr) : DArr :=
  if (a.chunks).any Option.isNone then a.compute_chunk_sizes else a

/-- A row of a partitioned table: its index label and its cells. -/
abbrev IRow : Type := Int × List CellVal

/-- An eager (pandas) dataframe for the concat/split/repair helpers: its
index-tagged rows.  (Column names play no role in these helpers; the
encoder-facing `Frame` type models them.) -/
structure PdDF : Type where
  rows : List IRow
  deriving DecidableEq, Repr

/-- A partitioned (dask) dataframe: a list of partitions of index-tagged
rows, plus the `known_divisions` flag. -/
structure DDF : Type where
  parts : List (List IRow)
  knownDivs : Bool
  deriving DecidableEq, Repr

/-- Materialise (`compute`) a partitioned dataframe. -/
def DDF.joinRows (d : DDF) : List IRow := d.parts.flatten

/-- A value that is either an eager or a partitioned dataframe. -/
inductive DFb : Type where
  | eager (p : PdDF)
  | parted (d : DDF)
  deriving DecidableEq, Repr

/-- `is_dask_dataframe` for a single value. -/
def DFb.isParted : DFb → Bool
  | .eager _ => false
  | .parted _ => true

/-- `exist_dask_dataframe(*dfs)` (lines 49-53). -/
def exist_dask_dataframe (dfs : List DFb) : Bool := dfs.any DFb.isParted

/-- Row comparison by index label, the key on which the modelled
`set_index` shuffle sorts. -/
def rIdx (a b : IRow) : Prop := a.1 ≤ b.1

instance : DecidableRel rIdx := fun a b => Int.decLe a.1 b.1

instance : IsTotal IRow rIdx := ⟨fun a b => Int.le_total a.1 b.1⟩

instance : IsTrans IRow rIdx := ⟨fun _ _ _ h1 h2 => le_trans h1 h2⟩

/-- The `reset_index().set_index(...)` round trip of `make_divisions_known`
(lines 88-93), modelled at the materialised level: the backend shuffle
orders all rows by the original index (the column `reset_index` introduced
and `set_index` indexes on) and re-emits them with known divisions; dask
reports unknown divisions for the degenerate empty result — the
spec's "degenerate/empty partitioning" failure mode. -/
def DDF.set_index_reset (X : DDF) : DDF :=
  let s := List.insertionSort rIdx X.joinRows
  ⟨[s], !s.isEmpty⟩

/-- `make_divisions_known` (lines 83-100), dataframe branch: a table with
known divisions passes through untouched; otherwise the
`reset_index`/`set_index` repair runs, and the `assert X.known_divisions`
at line 93 raises (models `AssertionError`) if the repair could not
establish divisions. -/
def make_divisions_known (X : DDF) : Except String DDF :=
  if X.knownDivs then .ok X
  else
    let Y := X.set_index_reset
    if Y.knownDivs then .ok Y
    else .error "AssertionError: X.known_divisions"

/-- A partitioned (dask) series: partitions of index-tagged cells, its name,
and the `known_divisions` flag. -/
structure DSer : Type where
  parts : List (List (Int × CellVal))
  name : String
  knownDivs : Bool
  deriving DecidableEq, Repr

/-- `X.to_frame()` on a partitioned series: each cell becomes a 1-cell row. -/
def DSer.to_frame (s : DSer) : DDF :=
  ⟨s.parts.map (List.map (fun p => (p.1, [p.2]))), s.knownDivs⟩

/-- Selecting the single column `[X.name]` back out of a repaired 1-column
frame (line 96). -/
def DSer.ofFrame (d : DDF) (nm : String) : DSer :=
  ⟨d.parts.map (List.map (fun r => (r.1, r.2.headD vnull))), nm, d.knownDivs⟩

/-- `make_divisions_known` (lines 94-96), series branch: delegate to the
dataframe repair through a to-frame/from-frame round trip. -/
def make_divisions_known_series (s : DSer) : Except String DSer :=
  (make_divisions_known s.to_frame).map (fun d => DSer.ofFrame d s.name)

/-- The `divisions` metadata of a partitioned table with known divisions:
the first index label of each partition followed by the last label overall
(dask's boundary convention). -/
def DDF.divisions (d : DDF) : List Int :=
  d.parts.filterMap (fun p => p.head?.map Prod.fst)
    ++ (d.joinRows.getLast?.map Prod.fst).toList

/-- Backend invariant: when a table reports `known_divisions`, its division
boundaries are monotonically non-decreasing.  Dask maintains this by
construction; the model states it as a hypothesis on inputs. -/
def DDF.wellFormedDivs (d : DDF) : Prop :=
  d.knownDivs = true → List.Chain' (· ≤ ·) d.divisions

theorem compute_chunks_no_unknown_aux :
    ∀ l : List Nat,
      (List.zipWith (fun n k => if k then some n else none) l
        (l.map (fun _ => true))).any Option.isNone = false
  | [] => rfl
  | _ :: xs => by simpa using compute_chunks_no_unknown_aux xs

theorem compute_chunks_no_unknown (a : DArr) :
    (a.compute_chunk_sizes).chunks.any Option.isNone = false :=
  compute_chunks_no_unknown_aux a.trueLens

theorem make_divisions_known_ok_known {X Y : DDF}
    (hok : make_divisions_known X = .ok Y) : Y.knownDivs = true := by
  unfold make_divisions_known at hok
  by_cases hX : X.knownDivs = true
  · rw [if_pos hX] at hok
    cases hok
    exact hX
  · rw [if_neg hX] at hok
    by_cases hE : X.set_index_reset.knownDivs = true
    · rw [if_pos hE] at hok
      cases hok
      exact hE
    · rw [if_neg hE] at hok
      cases hok

theorem serRoundTripPart (l : List (Int × CellVal)) :
    (l.map (fun p => (p.1, [p.2]))).map (fun r => (r.1, r.2.headD vnull)) = l := by
  induction l with
  | nil => rfl
  | cons x xs ih =>
    simp only [List.map_cons, ih]
    rfl

theorem DSer.ofFrame_to_frame (s : DSer) :
    DSer.ofFrame s.to_frame s.name = s := by
  cases s with
  | mk parts nm kd =>
    simp only [DSer.to_frame, DSer.ofFrame, List.map_map]
    congr 1
    have h : ∀ l ∈ parts,
        ((List.map fun r => (r.1, r.2.headD vnull)) ∘
          List.map fun p => (p.1, [p.2])) l = id l :=
      fun l _ => serRoundTripPart l
    rw [List.map_congr_left h, List.map_id]

theorem make_divisions_known_series_known {s : DSer}
    (h : s.knownDivs = true) : make_divisions_known_series s = .ok s := by
  unfold make_divisions_known_series make_divisions_known
  have hf : s.to_frame.knownDivs = true := h
  rw [if_pos hf]
  simp [Except.map, DSer.ofFrame_to_frame]

theorem make_divisions_known_series_ok_known {s t : DSer}
    (hok : make_divisions_known_series s = .ok t) : t.knownDivs = true := by
  unfold make_divisions_known_series at hok
  cases hm : make_divisions_known s.to_frame with
  | error e => rw [hm] at hok; simp [Except.map] at hok
  | ok d =>
    rw [hm] at hok
    simp only [Except.map] at hok
    cases hok
    exact make_divisions_known_ok_known hm

/-- C5: chunk-size repair and division repair (dataframe and series forms)
are idempotent, and a second call does no work: an input whose chunk sizes
or divisions are already known is returned unchanged. -/
theorem C5_repair_idempotent :
    (∀ a : DArr, make_chunk_size_known (make_chunk_size_known a)
        = make_chunk_size_known a)
    ∧ (∀ a : DArr, a.chunks.any Option.isNone = false →
        make_chunk_size_known a = a)
    ∧ (∀ X Y : DDF, make_divisions_known X = .ok Y →
        make_divisions_known Y = .ok Y)
    ∧ (∀ X : DDF, X.knownDivs = true → make_divisions_known X = .ok X)
    ∧ (∀ s t : DSer, make_divisions_known_series s = .ok t →
        make_divisions_known_series t = .ok t)
    ∧ (∀ s : DSer, s.knownDivs = true →
        make_divisions_known_series s = .ok s) := by
  refine ⟨?_, ?_, ?_, ?_, ?_, ?_⟩
  · intro a
    by_cases h : a.chunks.any Option.isNone = true
    · unfold make_chunk_size_known
      rw [if_pos h, if_neg (by simp [compute_chunks_no_unknown])]
    · unfold make_chunk_size_known
      rw [if_neg h, if_neg h]
  · intro a h
    unfold make_chunk_size_known
    rw [if_neg (by simp [h])]
  · intro X Y hok
    unfold make_divisions_known
    rw [if_pos (make_divisions_known_ok_known hok)]
  · intro X h
    unfold make_divisions_known
    rw [if_pos h]
  · intro s t hok
    exact make_divisions_known_series_known
      (make_divisions_known_series_ok_known hok)
  · intro s h
    exact make_divisions_known_series_known h

/-- A concrete all-known two-chunk array. -/
def arrKnown : DArr := ⟨[2, 3], [true, true]⟩

/-- A concrete known-divisions one-partition table. -/
def ddfKnown : DDF := ⟨[[(0, [vint 1]), (1, [vint 2])]], true⟩

/-- A concrete unknown-divisions one-partition table. -/
def ddfUnknown : DDF := ⟨[[(1, [vint 2]), (0, [vint 1])]], false⟩

/-- A concrete known-divisions series. -/
def serKnown : DSer := ⟨[[(0, vstr "a")]], "c", true⟩

/-- A second concrete known-divisions table. -/
def ddfKnown2 : DDF := ⟨[[(5, [vint 9])]], true⟩

/-- A second concrete known-divisions series. -/
def serKnown2 : DSer := ⟨[[(7, vint 4)]], "d", true⟩

/-- A concrete unknown-divisions series. -/
def serUnknown : DSer := ⟨[[(1, vstr "b"), (0, vstr "a")]], "c", false⟩

/-- Witness for C5 at concrete arrays, tables and series: already-known
inputs pass through unchanged, and repairing an already-repaired table or
series is the identity. -/
theorem C5_repair_idempotent_witness :
    make_chunk_size_known arrKnown = arrKnown
    ∧ make_divisions_known ddfKnown = .ok ddfKnown
    ∧ make_divisions_known ddfKnown2 = .ok ddfKnown2
    ∧ make_divisions_known_series serKnown = .ok serKnown
    ∧ make_divisions_known_series serKnown2 = .ok serKnown2 :=
  ⟨C5_repair_idempotent.2.1 arrKnown (by decide),
   C5_repair_idempotent.2.2.1 ddfKnown ddfKnown (by decide),
   C5_repair_idempotent.2.2.2.1 ddfKnown2 (by decide),
   C5_repair_idempotent.2.2.2.2.1 serKnown serKnown (by decide),
   C5_repair_idempotent.2.2.2.2.2 serKnown2 (by decide)⟩

theorem head_le_getLast_of_sorted (a : IRow) (t : List IRow)
    (hs : (a :: t).Sorted rIdx) :
    rIdx a ((a :: t).getLast (by simp)) := by
  cases t with
  | nil => exact le_refl a.1
  | cons b t' =>
    rw [List.getLast_cons (List.cons_ne_nil b t')]
    exact (List.pairwise_cons.mp hs).1 _ (List.getLast_mem _)

theorem divisions_chain_of_single_sorted (s : List IRow) (b : Bool)
    (hs : s.Sorted rIdx) (hne : s ≠ []) :
    List.Chain' (· ≤ ·) (DDF.divisions ⟨[s], b⟩) := by
  obtain ⟨a, t, rfl⟩ := List.exists_cons_of_ne_nil hne
  have h1 : DDF.divisions ⟨[a :: t], b⟩
      = [a.1, ((a :: t).getLast (by simp)).1] := by
    simp only [DDF.divisions, DDF.joinRows, List.flatten, List.append_nil,
      List.filterMap_cons, List.filterMap_nil, List.head?_cons, Option.map_some,
      List.getLast?_eq_getLast _ (List.cons_ne_nil a t)]
    rfl
  rw [h1]
  simp only [List.chain'_cons, List.chain'_singleton, and_true]
  exact head_le_getLast_of_sorted a t hs

/-- C6: every non-error return of `make_divisions_known` on a partitioned
table satisfies `known_divisions` with monotonically non-decreasing
divisions (given the backend invariant on already-known inputs), and on a
degenerate table whose repair cannot establish divisions (no rows at all)
the `assert` at line 93 raises instead of returning silently. -/
theorem C6_divisions_after_repair :
    (∀ X Y : DDF, X.wellFormedDivs → make_divisions_known X = .ok Y →
        Y.knownDivs = true ∧ List.Chain' (· ≤ ·) Y.divisions
          ∧ Y.wellFormedDivs)
    ∧ (∀ X : DDF, X.knownDivs = false → X.joinRows = [] →
        make_divisions_known X
          = .error "AssertionError: X.known_divisions") := by
  constructor
  · intro X Y hwf hok
    have hY := make_divisions_known_ok_known hok
    unfold make_divisions_known at hok
    by_cases hXk : X.knownDivs = true
    · rw [if_pos hXk] at hok
      cases hok
      exact ⟨hXk, hwf hXk, hwf⟩
    · rw [if_neg hXk] at hok
      by_cases hE : X.set_index_reset.knownDivs = true
      · rw [if_pos hE] at hok
        cases hok
        have hsne : List.insertionSort rIdx X.joinRows ≠ [] := by
          intro hcon
          unfold DDF.set_index_reset at hE
          rw [hcon] at hE
          simp at hE
        have hchain : List.Chain' (· ≤ ·) X.set_index_reset.divisions :=
          divisions_chain_of_single_sorted _ _
            (List.sorted_insertionSort rIdx X.joinRows) hsne
        exact ⟨hE, hchain, fun _ => hchain⟩
      · rw [if_neg hE] at hok
        cases hok
  · intro X h hempty
    unfold make_divisions_known
    rw [if_neg (by simp [h]),
      if_neg (by simp [DDF.set_index_reset, hempty])]

/-- A degenerate partitioned table: one empty partition, unknown divisions. -/
def ddfEmpty : DDF := ⟨[[]], false⟩

/-- Witness for C6: repairing a concrete unknown-divisions table yields
known, monotone divisions, and the degenerate empty table raises. -/
theorem C6_divisions_after_repair_witness :
    ddfKnown.knownDivs = true
    ∧ List.Chain' (· ≤ ·) ddfKnown.divisions
    ∧ make_divisions_known ddfEmpty
      = .error "AssertionError: X.known_divisions" :=
  ⟨(C6_divisions_after_repair.1 ddfUnknown ddfKnown
      (fun hcon => Bool.noConfusion hcon) (by decide)).1,
   (C6_divisions_after_repair.1 ddfUnknown ddfKnown
      (fun hcon => Bool.noConfusion hcon) (by decide)).2.1,
   C6_divisions_after_repair.2 ddfEmpty (by decide) (by decide)⟩

/-- The index labels of a row list, in order. -/
def idxList (rows : List IRow) : List Int := rows.map Prod.fst

/-- Row-for-row horizontal pairing of two aligned tables. -/
def zipRows (a b : List IRow) : List IRow :=
  List.zipWith (fun ra rb => (ra.1, ra.2 ++ rb.2)) a b

/-- `pd.concat` (modelled from pandas' documented semantics): axis 0 stacks
the rows; axis 1 aligns inputs by index — the model covers the row-aligned
case (identical index sequences, pairing the rows positionally) and reports
the general index-joining case as an error, which no verified path
exercises. -/
def pd_concat (dfs : List PdDF) (axis : Nat) : Except String PdDF :=
  if axis = 1 then
    match dfs with
    | [] => .error "ValueError: No objects to concatenate"
    | d :: rest =>
      if rest.all (fun e => decide (idxList e.rows = idxList d.rows)) then
        .ok ⟨rest.foldl (fun acc e => zipRows acc e.rows) d.rows⟩
      else .error "model: axis-1 concat of misaligned indexes is outside this embedding"
  else .ok ⟨(dfs.map PdDF.rows).flatten⟩

/-- `dd.concat`'s `_maybe_from_pandas` promotion (modelled from dask):
an eager input becomes a single-partition dask frame whose divisions are
known iff its index is monotone, a partitioned input passes through. -/
def promoteDF : DFb → DDF
  | .parted d => d
  | .eager p => ⟨[p.rows], decide (List.Chain' (· ≤ ·) (idxList p.rows))⟩

/-- `dd.concat` (modelled from dask's documented semantics): along axis 1 it
raises `ValueError` when any input has unknown divisions, and otherwise
aligns the inputs row-for-row by index (modelled at the materialised level,
one output partition with known divisions); along axis 0 it stacks the
partitions and the model conservatively reports unknown divisions. -/
def dd_concat (dfs : List DFb) (axis : Nat) : Except String DDF :=
  let ds := dfs.map promoteDF
  if axis = 1 then
    if ds.all DDF.knownDivs then
      (pd_concat (ds.map (fun d => ⟨d.joinRows⟩)) 1).map
        (fun p => ⟨[p.rows], true⟩)
    else .error "ValueError: Unable to concatenate DataFrame with unknown division specifying axis=1"
  else .ok ⟨(ds.map DDF.parts).flatten, false⟩

/-- `make_divisions_known` (lines 83-100) applied to an arbitrary value:
the `assert is_dask_object(X)` at line 84 raises on an eager input. -/
def make_divisions_known_any : DFb → Except String DFb
  | .parted d => (make_divisions_known d).map DFb.parted
  | .eager _ => .error "AssertionError: is_dask_object"

/-- The list comprehension `[make_divisions_known(df) for df in dfs]` at
line 118: the first raised error aborts. -/
def repair_all : List DFb → Except String (List DFb)
  | [] => .ok []
  | x :: xs =>
    (make_divisions_known_any x).bind (fun y =>
      (repair_all xs).map (fun ys => y :: ys))

/-- `df.repartition(npartitions=...)` (line 121): the model keeps the
materialised rows and divisions; partition-count bookkeeping is outside the
model (no claim exercises `repartition=True`). -/
def DDF.repartition (d : DDF) (_n : Nat) : DDF := ⟨[d.joinRows], d.knownDivs⟩

/-- `concat_df` (lines 115-125): if any input is a dask dataframe, repair
divisions on every input first when concatenating along columns, then
`dd.concat` (and optionally repartition to the first input's partition
count); otherwise eager `pd.concat`. -/
def concat_df (dfs : List DFb) (axis : Nat) (repartition : Bool) :
    Except String DFb :=
  if exist_dask_dataframe dfs then
    (if axis = 1 then repair_all dfs else .ok dfs).bind (fun dfs2 =>
      (dd_concat dfs2 axis).map (fun d =>
        DFb.parted (if repartition then
            DDF.repartition d (match dfs2.headD (.parted d) with
              | .parted dd => dd.parts.length
              | .eager _ => 1)
          else d)))
  else
    (pd_concat (dfs.map (fun x => match x with
      | .eager p => p
      | .parted d => ⟨d.joinRows⟩)) axis).map DFb.eager

theorem make_divisions_known_sorted (A : DDF) (hA : A.knownDivs = false)
    (hs : A.joinRows.Sorted rIdx) (hne : A.joinRows ≠ []) :
    make_divisions_known A = .ok ⟨[A.joinRows], true⟩ := by
  have hje : A.joinRows.isEmpty = false := by
    cases hjr : A.joinRows with
    | nil => exact absurd hjr hne
    | cons a t => rfl
  simp only [make_divisions_known, DDF.set_index_reset, hA,
    Bool.false_eq_true, if_false, List.Sorted.insertionSort_eq hs, hje,
    Bool.not_false, if_true]

/-- C4: concatenating partitioned tables along columns with initially
unknown divisions does not raise — `concat_df` repairs divisions first — and
the materialised result equals the eager `pd.concat` of the materialised
inputs; and whenever `concat_df` returns with any partitioned input, the
result is partitioned.  The row-aligned inputs carry a globally monotone
index (the layout `from_pandas` produces; with a non-monotone index even the
eager concat reorders rows by index alignment). -/
theorem C4_concat_axis1_unknown_divisions :
    (∀ A B : DDF, A.knownDivs = false → B.knownDivs = false →
      A.joinRows ≠ [] →
      A.joinRows.Sorted rIdx → B.joinRows.Sorted rIdx →
      idxList A.joinRows = idxList B.joinRows →
      ∃ C : DDF,
        concat_df [.parted A, .parted B] 1 false = .ok (.parted C)
        ∧ C.knownDivs = true
        ∧ pd_concat [⟨A.joinRows⟩, ⟨B.joinRows⟩] 1 = .ok ⟨C.joinRows⟩)
    ∧ (∀ (dfs : List DFb) (axis : Nat) (r : DFb),
        concat_df dfs axis false = .ok r →
        exist_dask_dataframe dfs = true → r.isParted = true) := by
  constructor
  · intro A B hA hB hne hsA hsB hEq
    have hneB : B.joinRows ≠ [] := by
      intro hcon
      apply hne
      have hlen := congrArg List.length hEq
      simp [idxList, hcon] at hlen
      exact hlen
    have hmA := make_divisions_known_sorted A hA hsA hne
    have hmB := make_divisions_known_sorted B hB hsB hneB
    have hEq' : idxList B.parts.flatten = idxList A.parts.flatten := hEq.symm
    have hra : repair_all [DFb.parted A, DFb.parted B]
        = .ok [DFb.parted ⟨[A.joinRows], true⟩,
               DFb.parted ⟨[B.joinRows], true⟩] := by
      simp [repair_all, make_divisions_known_any, hmA, hmB, Except.bind,
        Except.map]
    have hdd : dd_concat [DFb.parted ⟨[A.joinRows], true⟩,
          DFb.parted ⟨[B.joinRows], true⟩] 1
        = .ok ⟨[zipRows A.joinRows B.joinRows], true⟩ := by
      simp [dd_concat, promoteDF, DDF.joinRows, pd_concat, hEq', Except.map]
    refine ⟨⟨[zipRows A.joinRows B.joinRows], true⟩, ?_, rfl, ?_⟩
    · simp [concat_df, hra, hdd, Except.bind, Except.map,
        exist_dask_dataframe, DFb.isParted]
    · simp [pd_concat, hEq', DDF.joinRows]
  · intro dfs axis r hok hex
    unfold concat_df at hok
    rw [if_pos hex] at hok
    rcases hre : (if axis = 1 then repair_all dfs else Except.ok dfs)
      with e | dfs2
    · rw [hre] at hok
      simp [Except.bind] at hok
    · rw [hre] at hok
      simp only [Except.bind] at hok
      rcases hdd : dd_concat dfs2 axis with e | d
      · rw [hdd] at hok
        simp [Except.map] at hok
      · rw [hdd] at hok
        simp only [Except.map] at hok
        cases hok
        rfl

/-- A concrete two-partition table with unknown divisions. -/
def ddfA : DDF := ⟨[[(0, [vint 1])], [(1, [vint 2])]], false⟩

/-- A concrete one-partition table with unknown divisions, row-aligned with
`ddfA`. -/
def ddfB : DDF := ⟨[[(0, [vint 10]), (1, [vint 20])]], false⟩

/-- Witness for C4 at concrete partitioned tables: axis-1 concat of two
unknown-division tables succeeds, produces known divisions, and matches the
eager concat; and an ok-return with a partitioned input is partitioned. -/
theorem C4_concat_witness :
    (∃ C : DDF,
      concat_df [.parted ddfA, .parted ddfB] 1 false = .ok (.parted C)
      ∧ C.knownDivs = true
      ∧ pd_concat [⟨ddfA.joinRows⟩, ⟨ddfB.joinRows⟩] 1 = .ok ⟨C.joinRows⟩)
    ∧ (DFb.parted ⟨[[(0, [vint 1])], [(1, [vint 2])]], false⟩).isParted
      = true :=
  ⟨C4_concat_axis1_unknown_divisions.1 ddfA ddfB (by decide) (by decide)
      (by decide) (by decide) (by decide) (by decide),
   C4_concat_axis1_unknown_divisions.2 [.parted ddfA] 0
      (DFb.parted ⟨[[(0, [vint 1])], [(1, [vint 2])]], false⟩)
      (by decide) (by decide)⟩

/-- A linear-congruential step, standing in for the backend RNG stream. -/
def lcgNext (s : Nat) : Nat := (1103515245 * s + 12345) % 2147483648

/-- Seeded selection shuffle over a list (Fisher-Yates style), standing in
for the backends' seeded permutation. -/
def shuffleAux {α : Type} : Nat → Nat → List α → List α
  | 0, _, l => l
  | Nat.succ f, s, l =>
    match l with
    | [] => []
    | _ :: _ =>
      let i := s % l.length
      match l[i]? with
      | some a => a :: shuffleAux f (lcgNext s) (l.eraseIdx i)
      | none => l

/-- Shuffle a whole list with a seed. -/
def shuffleList {α : Type} (seed : Nat) (l : List α) : List α :=
  shuffleAux l.length seed l

/-- `sklearn.model_selection.train_test_split` (modelled from its documented
semantics): a seeded shuffle and a 75/25 positional split of each dataset;
the process-global RNG state `ambient` is consulted only when
`random_state` is None. -/
def sk_train_test_split (ambient : Nat) (data : List PdDF) (shuffle : Bool)
    (random_state : Option Nat) : List (PdDF × PdDF) :=
  let seed := random_state.getD ambient
  data.map (fun p =>
    let rows := if shuffle then shuffleList seed p.rows else p.rows
    let k := rows.length * 3 / 4
    (⟨rows.take k⟩, ⟨rows.drop k⟩))

/-- `dask_ml.model_selection.train_test_split` (modelled from its documented
semantics): blockwise — each partition is seeded-shuffled and split within
itself; same seeding convention as the eager splitter. -/
def dm_train_test_split (ambient : Nat) (data : List DFb) (shuffle : Bool)
    (random_state : Option Nat) : List (DFb × DFb) :=
  let seed := random_state.getD ambient
  data.map (fun x =>
    match x with
    | .parted d =>
      (DFb.parted ⟨d.parts.map (fun part =>
          let rows := if shuffle then shuffleList seed part else part
          rows.take (rows.length * 3 / 4)), false⟩,
       DFb.parted ⟨d.parts.map (fun part =>
          let rows := if shuffle then shuffleList seed part else part
          rows.drop (rows.length * 3 / 4)), false⟩)
    | .eager p =>
      let rows := if shuffle then shuffleList seed p.rows else p.rows
      let k := rows.length * 3 / 4
      (DFb.eager ⟨rows.take k⟩, DFb.eager ⟨rows.drop k⟩))

/-- `to_dask_type` (lines 63-69) restricted to dataframes: an eager frame is
promoted to a single-partition dask frame (`dd.from_pandas`; divisions known
iff the index is monotone), dask objects pass through. -/
def to_dask_type : DFb → DFb
  | .eager p =>
    .parted ⟨[p.rows], decide (List.Chain' (· ≤ ·) (idxList p.rows))⟩
  | x => x

/-- `train_test_split` (lines 128-134): if any dataset is a dask dataframe,
promote every dataset and repair divisions when more than one is passed,
then call the dask_ml splitter; otherwise the sklearn splitter.  `shuffle`
and `random_state` (default `some 9527`) are forwarded verbatim; `ambient`
models the process-global RNG the backends consult only for a None
`random_state`. -/
def train_test_split (ambient : Nat) (data : List DFb) (shuffle : Bool)
    (random_state : Option Nat) : Except String (List (DFb × DFb)) :=
  if exist_dask_dataframe data then
    (if data.length > 1 then repair_all (data.map to_dask_type)
     else .ok data).map (fun data2 =>
      dm_train_test_split ambient data2 shuffle random_state)
  else
    .ok ((sk_train_test_split ambient (data.map (fun x => match x with
        | .eager p => p
        | .parted d => ⟨d.joinRows⟩)) shuffle random_state).map
      (fun pr => (DFb.eager pr.1, DFb.eager pr.2)))

/-- C8: `train_test_split` is deterministic in its `random_state` for a
fixed backend: with an explicit `random_state` (e.g. the default 9527) the
split does not depend on the process-global RNG state, so two calls with
the same datasets, `shuffle` flag and `random_state` produce identical
splits — in particular on a single partitioned table with
`random_state=9527`.  The second conjunct shows the dependence on the
global RNG is really modelled (a None `random_state` is ambient-sensitive),
so the determinism statement is not vacuous. -/
theorem C8_train_test_split_deterministic :
    (∀ (g1 g2 : Nat) (data : List DFb) (shuffle : Bool) (n : Nat),
      train_test_split g1 data shuffle (some n)
        = train_test_split g2 data shuffle (some n))
    ∧ train_test_split 0 [DFb.eager ⟨[(0, []), (1, [])]⟩] true none
      ≠ train_test_split 1 [DFb.eager ⟨[(0, []), (1, [])]⟩] true none :=
  ⟨fun _ _ _ _ _ => rfl, by decide⟩

/-- A prediction result matrix. -/
abbrev Matx : Type := List (List Int)

/-- A value an estimator's prediction method returns: lazy (dask) or
materialised. -/
inductive DVal : Type where
  | lazy (m : Matx)
  | eager (m : Matx)
  deriving DecidableEq, Repr

/-- `is_dask_object` (lines 38-39) on prediction results. -/
def DVal.is_dask_object : DVal → Bool
  | .lazy _ => true
  | .eager _ => false

/-- `r.compute()`: materialise a lazy result. -/
def DVal.compute : DVal → DVal
  | .lazy m => .eager m
  | v => v

/-- An estimator as `permutation_importance` sees it: the optional bound
`predict`/`predict_proba` attributes plus the `_orig_predict` /
`_orig_predict_proba` slots that `wrap_estimator` adds. -/
structure PredEstimator : Type where
  predict : Option (Matx → DVal)
  predict_proba : Option (Matx → DVal)
  orig_predict : Option (Matx → DVal)
  orig_predict_proba : Option (Matx → DVal)

/-- `call_and_compute` (lines 148-152): call the wrapped method and force a
lazy result to materialise. -/
def call_and_compute (fn : Matx → DVal) (x : Matx) : DVal :=
  let r := fn x
  if r.is_dask_object then r.compute else r

/-- `wrap_estimator` (lines 147-164): mutates the estimator in place —
stashes each present prediction method under its `_orig_*` attribute and
replaces the method with the materialising wrapper; `predict_proba` is
wrapped first, then `predict`.  Nothing ever restores the originals. -/
def wrap_estimator (est : PredEstimator) : PredEstimator :=
  let est1 := match est.predict_proba with
    | some pp =>
      { est with orig_predict_proba := some pp
                 predict_proba := some (call_and_compute pp) }
    | none => est
  match est1.predict with
  | some p =>
    { est1 with orig_predict := some p
                predict := some (call_and_compute p) }
  | none => est1

/-- `shuffle_partition` (lines 166-172) with the numpy `RandomState`
threaded explicitly: permute column `c` of one partition by a seeded
permutation of its row positions, and advance the RNG. -/
def shuffle_partition (rng : Nat) (df : Matx) (c : Nat) : Matx × Nat :=
  let perm := shuffleList rng (List.range df.length)
  ((List.range df.length).map (fun i =>
      let row := df.getD i []
      let j := perm.getD i i
      row.set c ((df.getD j []).getD c 0)),
   lcgNext rng)

/-- `X.copy().map_partitions(shuffle_partition, c)` (line 184): shuffle the
column within each partition independently, threading the RNG across
partitions in order. -/
def shuffle_all_parts (rng : Nat) (parts : List Matx) (c : Nat) :
    List Matx × Nat :=
  parts.foldl (fun acc part =>
    let pr := shuffle_partition acc.2 part c
    (acc.1 ++ [pr.1], pr.2)) ([], rng)

/-- The `sklearn.utils.Bunch` that `permutation_importance` returns.
Scores are integers in the model; the standard deviation entry is kept as a
structural placeholder (its floating-point value is not modelled and no
claim mentions it). -/
structure Bunch : Type where
  importances_mean : List Int
  importances_std : List Int
  importances : List (List Int)
  deriving DecidableEq, Repr

/-- The feature table handed to `permutation_importance`. -/
inductive PIInput : Type where
  | eagerX (m : Matx)
  | partedX (parts : List Matx)

/-- `sklearn.inspection.permutation_importance` (modelled from sklearn's
documented behaviour; the eager branch delegates to it wholesale at lines
140-144): per-column seeded shuffles and score degradation, with no
estimator wrapping. -/
def sk_permutation_importance (est : PredEstimator) (X : Matx) (y : List Int)
    (scoring : PredEstimator → List Matx → List Int → Int)
    (n_repeats : Nat) (random_state : Nat) : Bunch :=
  let baseline := scoring est [X] y
  let ncols := (X.headD []).length
  let loop := (List.range ncols).foldl (fun acc c =>
    let inner := (List.range n_repeats).foldl (fun acc2 _ =>
      let pr := shuffle_partition acc2.2 X c
      (acc2.1 ++ [scoring est [pr.1] y], pr.2)) (([] : List Int), acc.2)
    (acc.1 ++ [inner.1], inner.2)) (([] : List (List Int)), random_state)
  let importances := loop.1.map (fun row => row.map (fun sc => baseline - sc))
  ⟨importances.map (fun row => row.sum / (n_repeats : Int)),
   importances.map (fun _ => 0),
   importances⟩

/-- `permutation_importance` (lines 137-193): the eager branch delegates to
the sklearn routine and leaves the estimator alone; the partitioned branch
wraps the estimator in place (`check_scoring(wrap_estimator(estimator),
scoring)`, line 177), computes a baseline, then per column and repeat
shuffles within partitions and scores; the mutated estimator is returned as
the second component — the wrapping is never undone. -/
def permutation_importance (est : PredEstimator) (X : PIInput) (y : List Int)
    (scoring : PredEstimator → List Matx → List Int → Int)
    (n_repeats : Nat) (random_state : Nat) : Bunch × PredEstimator :=
  match X with
  | .eagerX m =>
    (sk_permutation_importance est m y scoring n_repeats random_state, est)
  | .partedX parts =>
    let est1 := wrap_estimator est
    let baseline := scoring est1 parts y
    let ncols := ((parts.headD []).headD []).length
    let loop := (List.range ncols).foldl (fun acc c =>
      let inner := (List.range n_repeats).foldl (fun acc2 _ =>
        let pr := shuffle_all_parts acc2.2 parts c
        (acc2.1 ++ [scoring est1 pr.1 y], pr.2)) (([] : List Int), acc.2)
      (acc.1 ++ [inner.1], inner.2)) (([] : List (List Int)), random_state)
    let importances := loop.1.map (fun row =>
      row.map (fun sc => baseline - sc))
    (⟨importances.map (fun row => row.sum / (n_repeats : Int)),
      importances.map (fun _ => 0),
      importances⟩, est1)

/-- C10: on a partitioned feature table, `permutation_importance` returns
the estimator mutated by `wrap_estimator` and never undoes it: each present
prediction method is replaced by the materialising `call_and_compute`
wrapper (whose results are never lazy) with the original stashed under the
`_orig_*` attribute. -/
theorem C10_permutation_importance_wraps (est : PredEstimator)
    (parts : List Matx) (y : List Int)
    (scoring : PredEstimator → List Matx → List Int → Int)
    (n_repeats rs : Nat) :
    (permutation_importance est (.partedX parts) y scoring n_repeats rs).2
      = wrap_estimator est
    ∧ (∀ p, est.predict = some p →
        (wrap_estimator est).predict = some (call_and_compute p)
        ∧ (wrap_estimator est).orig_predict = some p
        ∧ ∀ x, (call_and_compute p x).is_dask_object = false)
    ∧ (∀ pp, est.predict_proba = some pp →
        (wrap_estimator est).predict_proba = some (call_and_compute pp)
        ∧ (wrap_estimator est).orig_predict_proba = some pp
        ∧ ∀ x, (call_and_compute pp x).is_dask_object = false) := by
  refine ⟨rfl, ?_, ?_⟩
  · intro p hp
    refine ⟨?_, ?_, ?_⟩
    · unfold wrap_estimator
      cases hpp : est.predict_proba <;> simp [hpp, hp]
    · unfold wrap_estimator
      cases hpp : est.predict_proba <;> simp [hpp, hp]
    · intro x
      unfold call_and_compute
      cases hpx : p x <;> simp [DVal.is_dask_object, DVal.compute]
  · intro pp hpp
    refine ⟨?_, ?_, ?_⟩
    · unfold wrap_estimator
      rw [hpp]
      cases hp : est.predict <;> simp [hp, hpp]
    · unfold wrap_estimator
      rw [hpp]
      cases hp : est.predict <;> simp [hp, hpp]
    · intro x
      unfold call_and_compute
      cases hpx : pp x <;> simp [DVal.is_dask_object, DVal.compute]

/-- A concrete estimator whose prediction methods return lazy results. -/
def estLazy : PredEstimator :=
  ⟨some (fun m => DVal.lazy m), some (fun m => DVal.lazy m), none, none⟩

/-- Witness for C10 on a concrete lazy estimator and partitioned input:
the returned estimator is the wrapped one, the originals are stashed, and
the wrapped methods materialise lazy results. -/
theorem C10_permutation_importance_witness :
    (permutation_importance estLazy (.partedX [[[1, 2]]]) [0]
        (fun _ _ _ => 0) 1 0).2 = wrap_estimator estLazy
    ∧ (wrap_estimator estLazy).predict
      = some (call_and_compute (fun m => DVal.lazy m))
    ∧ (wrap_estimator estLazy).orig_predict = some (fun m => DVal.lazy m)
    ∧ (call_and_compute (fun m => DVal.lazy m) [[1, 2]]).is_dask_object
      = false
    ∧ (wrap_estimator estLazy).predict_proba
      = some (call_and_compute (fun m => DVal.lazy m))
    ∧ (wrap_estimator estLazy).orig_predict_proba
      = some (fun m => DVal.lazy m) :=
  ⟨(C10_permutation_importance_wraps estLazy [[[1, 2]]] [0]
      (fun _ _ _ => 0) 1 0).1,
   ((C10_permutation_importance_wraps estLazy [[[1, 2]]] [0]
      (fun _ _ _ => 0) 1 0).2.1 _ rfl).1,
   ((C10_permutation_importance_wraps estLazy [[[1, 2]]] [0]
      (fun _ _ _ => 0) 1 0).2.1 _ rfl).2.1,
   ((C10_permutation_importance_wraps estLazy [[[1, 2]]] [0]
      (fun _ _ _ => 0) 1 0).2.1 _ rfl).2.2 [[1, 2]],
   ((C10_permutation_importance_wraps estLazy [[[1, 2]]] [0]
      (fun _ _ _ => 0) 1 0).2.2 _ rfl).1,
   ((C10_permutation_importance_wraps estLazy [[[1, 2]]] [0]
      (fun _ _ _ => 0) 1 0).2.2 _ rfl).2.1⟩
